import Mathlib

/-!
Shallow embedding of the DataPlatform market-data pipeline.

Each definition translates one function or data shape of the Python source,
with the source file and function named in its doc comment.  Prices and
quantities (Python `Decimal` / `float`) are embedded as rationals; datetimes
are embedded as epoch seconds (naturals for database rows, rationals where
sub-second resolution matters); Python dictionaries are association lists
from strings to embedded values.
-/

namespace DataPlatform

/-- Embedded Python value: the value kinds that flow through the candle and
cache paths (strings, datetimes, Decimals/floats, ints, bools). -/
inductive PyVal where
  | str (s : String)
  | dt (epochSec : ℕ)
  | rat (q : ℚ)
  | int (n : ℤ)
  | bool (b : Bool)
deriving DecidableEq

/-- A Python dict with string keys, as an association list. -/
abbrev Dict := List (String × PyVal)

/-- Python `d.get(k, default)` / `d[k]` lookup on an embedded dict. -/
def dictGet (d : Dict) (k : String) (dflt : PyVal) : PyVal :=
  match d.find? (fun kv => kv.1 == k) with
  | some kv => kv.2
  | none => dflt

/-- Python `int()` truncation of a rational toward zero. -/
def ratTrunc (q : ℚ) : ℤ := q.num.tdiv (q.den : ℤ)

/-- Python `float(x)` on the values that reach it in `insert_candles`
(Decimals, ints, bools; strings and datetimes never reach this coercion on
the embedded paths). -/
def pyFloat : PyVal → ℚ
  | .rat q => q
  | .int n => (n : ℚ)
  | .bool b => if b then 1 else 0
  | .dt n => (n : ℚ)
  | .str _ => 0

/-- Python `int(x)` on the values that reach it in `insert_candles`. -/
def pyIntVal : PyVal → ℤ
  | .int n => n
  | .bool b => if b then 1 else 0
  | .rat q => ratTrunc q
  | .dt n => (n : ℕ)
  | .str _ => 0

/-- Projection of an embedded datetime value. -/
def pyDt : PyVal → ℕ
  | .dt n => n
  | _ => 0

/-- Projection of an embedded string value. -/
def pyStr : PyVal → String
  | .str s => s
  | _ => ""

/-- The declared fields of the pydantic `Candle` model in
`core/models/market_data.py` (lines 49-65): timestamp, exchange, symbol,
timeframe, open, high, low, close, volume, trades_count.  The model declares
no `quote_volume` and no `is_synthetic` field. -/
def candleModelFields : List String :=
  ["timestamp", "exchange", "symbol", "timeframe",
   "open", "high", "low", "close", "volume", "trades_count"]

/-- Pydantic `Candle(**kwargs)` construction under the default model config
(`extra="ignore"`): keyword arguments that are not declared fields are
silently discarded.  `Candle.model_dump()` then returns exactly the retained
field/value pairs, so the result of this function is also the dict the sync
service hands to `insert_candles`. -/
def pydanticCandleInit (kwargs : Dict) : Dict :=
  kwargs.filter (fun kv => candleModelFields.contains kv.1)

/-- The keyword arguments `BinanceRestAPI.fetch_latest_klines`
(`providers/binance/rest_api.py`, lines 137-152) passes to `Candle(...)` for
one OHLCV row: `quote_volume = volume * close` and `is_synthetic = False`
are computed and passed, `trades_count = 0`. -/
def fetchLatestKlinesCandleKwargs (ts : ℕ) (exchangeName symbol timeframe : String)
    (o h l c v : ℚ) : Dict :=
  [("timestamp", .dt ts), ("exchange", .str exchangeName), ("symbol", .str symbol),
   ("timeframe", .str timeframe),
   ("open", .rat o), ("high", .rat h), ("low", .rat l), ("close", .rat c),
   ("volume", .rat v),
   ("quote_volume", .rat (v * c)),
   ("trades_count", .int 0),
   ("is_synthetic", .bool false)]

/-- A row of a `trading.candles_{1m,5m,1h}` ClickHouse table, with the column
set of `providers/opensource/clickhouse.py` (`insert_candles`, lines 336-358). -/
structure ChCandleRow where
  timestamp : ℕ
  exchange : String
  symbol : String
  open_ : ℚ
  high : ℚ
  low : ℚ
  close : ℚ
  volume : ℚ
  quote_volume : ℚ
  trades_count : ℤ
  is_synthetic : ℤ
deriving DecidableEq

/-- The row tuple `ClickHouseClient.insert_candles` builds from one candle
dict (lines 336-351): `timestamp`, `exchange`, `symbol` and the OHLCV columns
are taken by direct indexing (every caller supplies them; the defaults here
model only the total function), while `quote_volume`, `trades_count` and
`is_synthetic` use `candle.get(key, 0)` with default `0`. -/
def insertCandlesRow (candle : Dict) : ChCandleRow :=
  { timestamp := pyDt (dictGet candle "timestamp" (.dt 0))
    exchange := pyStr (dictGet candle "exchange" (.str ""))
    symbol := pyStr (dictGet candle "symbol" (.str ""))
    open_ := pyFloat (dictGet candle "open" (.rat 0))
    high := pyFloat (dictGet candle "high" (.rat 0))
    low := pyFloat (dictGet candle "low" (.rat 0))
    close := pyFloat (dictGet candle "close" (.rat 0))
    volume := pyFloat (dictGet candle "volume" (.rat 0))
    quote_volume := pyFloat (dictGet candle "quote_volume" (.int 0))
    trades_count := pyIntVal (dictGet candle "trades_count" (.int 0))
    is_synthetic := pyIntVal (dictGet candle "is_synthetic" (.int 0)) }

/-- The timeframe-to-table mapping of `insert_candles` and `query_candles`. -/
def candleTableNames : List (String × String) :=
  [("1m", "candles_1m"), ("5m", "candles_5m"), ("1h", "candles_1h")]

/-- `ClickHouseClient.insert_candles(candles, timeframe)` (lines 309-380):
an empty batch returns without touching the table; an unsupported timeframe
raises `ValueError` (embedded as `none`); otherwise each candle dict is
converted to a row tuple and appended to the timeframe table (a
`ReplacingMergeTree`, so inserts append and deduplication happens on merge). -/
def insertCandles (table : List ChCandleRow) (candles : List Dict)
    (timeframe : String) : Option (List ChCandleRow) :=
  if candles.isEmpty then some table
  else
    match candleTableNames.lookup timeframe with
    | none => none
    | some _ => some (table ++ candles.map insertCandlesRow)

/-- C10: every candle row the sync service writes has `quote_volume = 0` and
`is_synthetic = 0`, regardless of the REST-fetched values, because the
pydantic `Candle` model silently discards both keyword arguments and
`insert_candles` defaults the missing keys to 0. -/
theorem sync_candle_row_defaults (ts : ℕ) (ex sym tf : String) (o h l c v : ℚ) :
    (insertCandlesRow (pydanticCandleInit
        (fetchLatestKlinesCandleKwargs ts ex sym tf o h l c v))).quote_volume = 0 ∧
    (insertCandlesRow (pydanticCandleInit
        (fetchLatestKlinesCandleKwargs ts ex sym tf o h l c v))).is_synthetic = 0 ∧
    "quote_volume" ∉ candleModelFields ∧ "is_synthetic" ∉ candleModelFields := by
  refine ⟨rfl, rfl, by decide, by decide⟩

/-- The in-process pydantic `Candle` object `query_candles` returns.  Because
the model declares neither `quote_volume` nor `is_synthetic` (see
`candleModelFields`), the values `query_candles` passes for those keywords are
discarded and the returned object carries only these fields. -/
structure Candle where
  timestamp : ℕ
  exchange : String
  symbol : String
  timeframe : String
  open_ : ℚ
  high : ℚ
  low : ℚ
  close : ℚ
  volume : ℚ
  trades_count : ℤ
deriving DecidableEq

/-- Conversion of a stored row to the returned `Candle` object
(`query_candles`, lines 438-454); the timeframe is the literal string the
SQL aliases into every selected row. -/
def candleOfRow (tf : String) (r : ChCandleRow) : Candle :=
  { timestamp := r.timestamp, exchange := r.exchange, symbol := r.symbol,
    timeframe := tf, open_ := r.open_, high := r.high, low := r.low,
    close := r.close, volume := r.volume, trades_count := r.trades_count }

/-- ClickHouse `toStartOfMinute(now())` on epoch seconds. -/
def toStartOfMinute (now : ℕ) : ℕ := now - now % 60

/-- `parse_timeframe` from `core/utils/gap_handling.py` (lines 123-153):
timeframe string to minutes, `ValueError` (here `none`) when unsupported. -/
def parseTimeframe (timeframe : String) : Option ℕ :=
  [("1m", 1), ("5m", 5), ("15m", 15), ("30m", 30),
   ("1h", 60), ("4h", 240), ("1d", 1440)].lookup timeframe

/-- Modelled from the spec: `startOfCurrentInterval(timeframe, now)`, the
open timestamp of the interval that contains `now` at the given timeframe
spacing.  This is the spec-side comparison function for the open-interval
exclusion property; it is not a function of the source. -/
def startOfCurrentInterval (timeframe : String) (now : ℕ) : ℕ :=
  let secs := 60 * (parseTimeframe timeframe).getD 1
  now - now % secs

/-- `ClickHouseClient.query_candles` (lines 382-475).  The SQL filters on
exchange, symbol and `timestamp < toStartOfMinute(now())` only — the
`start_time` and `end_time` parameters are accepted but never referenced by
the query — then orders by timestamp descending, applies `LIMIT limit`, and
the Python loop walks the result in reverse, building ascending `Candle`
objects.  The caller passes the table selected by the timeframe mapping
(`candles_1m` is also the fallback table for unknown timeframes). -/
def queryCandles (table : List ChCandleRow) (exchange symbol timeframe : String)
    (limit : ℕ) (start_time end_time : Option ℕ) (now : ℕ) : List Candle :=
  let filtered := table.filter
    (fun r => r.exchange == exchange && r.symbol == symbol
      && decide (r.timestamp < toStartOfMinute now))
  let ordered := filtered.insertionSort (fun a b => b.timestamp ≤ a.timestamp)
  ((ordered.take limit).reverse).map (candleOfRow timeframe)

/-- The candle dict of the spec round-trip scenario:
2024-01-01T00:00:00Z (epoch 1704067200), binance BTCUSDT,
o=50000 h=50100 l=49900 c=50050 v=10 qv=500000 trades=100 synthetic=false. -/
def roundTripCandleDict : Dict :=
  [("timestamp", .dt 1704067200), ("exchange", .str "binance"),
   ("symbol", .str "BTCUSDT"), ("timeframe", .str "1m"),
   ("open", .rat 50000), ("high", .rat 50100), ("low", .rat 49900),
   ("close", .rat 50050), ("volume", .rat 10),
   ("quote_volume", .rat 500000), ("trades_count", .int 100),
   ("is_synthetic", .bool false)]

/-- A second candle ten minutes later, outside the one-interval window of the
first. -/
def laterCandleDict : Dict :=
  [("timestamp", .dt 1704067800), ("exchange", .str "binance"),
   ("symbol", .str "BTCUSDT"), ("timeframe", .str "1m"),
   ("open", .rat 50050), ("high", .rat 50200), ("low", .rat 50000),
   ("close", .rat 50100), ("volume", .rat 5),
   ("quote_volume", .rat 250000), ("trades_count", .int 50),
   ("is_synthetic", .bool false)]

/-- The stored row produced by inserting `roundTripCandleDict`. -/
def roundTripRow : ChCandleRow :=
  ⟨1704067200, "binance", "BTCUSDT", 50000, 50100, 49900, 50050, 10, 500000, 100, 0⟩

/-- The `Candle` object the round-trip query is expected to return. -/
def roundTripCandle : Candle :=
  ⟨1704067200, "binance", "BTCUSDT", "1m", 50000, 50100, 49900, 50050, 10, 100⟩

/-- C2 counterexample: with two candles inserted (00:00:00 and 00:10:00),
a query whose window is [00:00:00, 00:00:59] still returns a candle at
00:10:00 — the start/end bounds are not applied. -/
theorem query_candles_window_counterexample :
    ∃ c ∈ queryCandles
        ((insertCandles [] [roundTripCandleDict, laterCandleDict] "1m").getD [])
        "binance" "BTCUSDT" "1m" 10 (some 1704067200) (some 1704067259) 1704070000,
      ¬ (1704067200 ≤ c.timestamp ∧ c.timestamp ≤ 1704067259) := by
  decide

/-- C2 (amended): `query_candles` returns candles in ascending timestamp
order and its result is entirely independent of the `start_time` / `end_time`
arguments (the source never uses them); after inserting the single scenario
candle into an empty table, a query at any wall-clock time past that candle
minute returns exactly that candle, with every field the `Candle` model can
carry intact. -/
theorem query_candles_amended (table : List ChCandleRow) (e s tf : String)
    (limit now : ℕ) (st en st2 en2 : Option ℕ)
    (hnow : 1704067200 < toStartOfMinute now) :
    queryCandles table e s tf limit st en now
      = queryCandles table e s tf limit st2 en2 now ∧
    List.Sorted (fun a b : Candle => a.timestamp ≤ b.timestamp)
      (queryCandles table e s tf limit st en now) ∧
    queryCandles ((insertCandles [] [roundTripCandleDict] "1m").getD [])
        "binance" "BTCUSDT" "1m" 10 st en now = [roundTripCandle] := by
  refine ⟨rfl, ?_, ?_⟩
  · have hsort : List.Sorted (fun a b : ChCandleRow => b.timestamp ≤ a.timestamp)
        ((table.filter (fun r => r.exchange == e && r.symbol == s
            && decide (r.timestamp < toStartOfMinute now))).insertionSort
          (fun a b => b.timestamp ≤ a.timestamp)) := by
      refine @List.sorted_insertionSort ChCandleRow
        (fun a b => b.timestamp ≤ a.timestamp) _ ⟨?_⟩ ⟨?_⟩ _
      · intro a b
        exact Nat.le_total b.timestamp a.timestamp
      · intro a b c hab hbc
        exact Nat.le_trans hbc hab
    have htake :
        List.Pairwise (fun a b : ChCandleRow => b.timestamp ≤ a.timestamp)
          (((table.filter (fun r => r.exchange == e && r.symbol == s
              && decide (r.timestamp < toStartOfMinute now))).insertionSort
            (fun a b => b.timestamp ≤ a.timestamp)).take limit) :=
      hsort.sublist (List.take_sublist _ _)
    have hrev :
        List.Pairwise (fun a b : ChCandleRow => a.timestamp ≤ b.timestamp)
          ((((table.filter (fun r => r.exchange == e && r.symbol == s
              && decide (r.timestamp < toStartOfMinute now))).insertionSort
            (fun a b => b.timestamp ≤ a.timestamp)).take limit).reverse) :=
      List.pairwise_reverse.mpr htake
    have hmap := (List.pairwise_map
      (f := candleOfRow tf)
      (R := fun a b : Candle => a.timestamp ≤ b.timestamp)).mpr
      (by
        refine hrev.imp ?_
        intro a b hab
        simpa [candleOfRow] using hab)
    simpa [queryCandles, List.Sorted] using hmap
  · have hins : (insertCandles [] [roundTripCandleDict] "1m").getD []
        = [insertCandlesRow roundTripCandleDict] := by decide
    rw [hins]
    have hrow : insertCandlesRow roundTripCandleDict = roundTripRow := by decide
    have hfil : List.filter (fun r : ChCandleRow => r.exchange == "binance"
          && r.symbol == "BTCUSDT" && decide (r.timestamp < toStartOfMinute now))
        [roundTripRow] = [roundTripRow] := by
      simp [roundTripRow, hnow]
    simp only [queryCandles]
    rw [hrow, hfil]
    rfl

/-- Concrete instantiation of the hypotheses of `query_candles_amended`:
the query one minute after the scenario candle returns exactly it. -/
theorem query_candles_amended_witness :
    queryCandles ((insertCandles [] [roundTripCandleDict] "1m").getD [])
        "binance" "BTCUSDT" "1m" 10 (some 1704067200) (some 1704067259) 1704067260
      = [roundTripCandle] :=
  (query_candles_amended [] "binance" "BTCUSDT" "1m" 10 1704067260
    (some 1704067200) (some 1704067259) none none (by decide)).2.2

/-- An hourly candle whose timestamp is the open of the 01:00-02:00 interval
(epoch 1704070800 = 2024-01-01T01:00:00Z), as stored in `candles_1h`. -/
def hourOpenCandleDict : Dict :=
  [("timestamp", .dt 1704070800), ("exchange", .str "binance"),
   ("symbol", .str "BTCUSDT"), ("timeframe", .str "1h"),
   ("open", .rat 50000), ("high", .rat 50100), ("low", .rat 49900),
   ("close", .rat 50050), ("volume", .rat 10),
   ("quote_volume", .rat 500000), ("trades_count", .int 100),
   ("is_synthetic", .bool false)]

/-- C3 counterexample: at wall-clock 01:30:00 (epoch 1704072600) a `1h` query
returns the candle whose timestamp is the open of the current hour interval,
because the filter only excludes the current minute
(`timestamp < toStartOfMinute(now())`), not the current hour. -/
theorem open_interval_counterexample :
    ∃ c ∈ queryCandles ((insertCandles [] [hourOpenCandleDict] "1h").getD [])
        "binance" "BTCUSDT" "1h" 200 none none 1704072600,
      ¬ c.timestamp < startOfCurrentInterval "1h" 1704072600 := by
  decide

/-- C3 (amended): every candle `query_candles` returns has a timestamp
strictly before the start of the current minute; since for timeframe `1m`
the start of the current interval is exactly the start of the current
minute, the open-interval exclusion of the claim holds for `1m` (and, by the
counterexample, only the current-minute exclusion holds for `5m` and `1h`). -/
theorem query_candles_closed_minute_amended (table : List ChCandleRow)
    (e s tf : String) (limit now : ℕ) (st en : Option ℕ) :
    (∀ c ∈ queryCandles table e s tf limit st en now,
        c.timestamp < toStartOfMinute now) ∧
    startOfCurrentInterval "1m" now = toStartOfMinute now ∧
    (∀ c ∈ queryCandles table e s "1m" limit st en now,
        c.timestamp < startOfCurrentInterval "1m" now) := by
  have hmem : ∀ tf2 : String, ∀ c ∈ queryCandles table e s tf2 limit st en now,
      c.timestamp < toStartOfMinute now := by
    intro tf2 c hc
    simp only [queryCandles] at hc
    obtain ⟨r, hr, rfl⟩ := List.mem_map.mp hc
    rw [List.mem_reverse] at hr
    have hr2 := List.mem_of_mem_take hr
    have hr3 := ((List.perm_insertionSort
      (fun a b : ChCandleRow => b.timestamp ≤ a.timestamp) _).mem_iff).mp hr2
    have hr4 := (List.mem_filter.mp hr3).2
    simp only [Bool.and_eq_true, decide_eq_true_eq] at hr4
    exact hr4.2
  have hone : startOfCurrentInterval "1m" now = toStartOfMinute now := by
    simp [startOfCurrentInterval, parseTimeframe, toStartOfMinute]
  refine ⟨hmem tf, hone, ?_⟩
  intro c hc
  rw [hone]
  exact hmem "1m" c hc

/-- Concrete instantiation of `query_candles_closed_minute_amended`: the
round-trip table queried at 00:01:00 returns only candles before 00:01:00. -/
theorem query_candles_closed_minute_witness :
    ∀ c ∈ queryCandles [roundTripRow] "binance" "BTCUSDT" "1m" 10
        (some 1704067200) none 1704067260,
      c.timestamp < toStartOfMinute 1704067260 :=
  (query_candles_closed_minute_amended [roundTripRow] "binance" "BTCUSDT" "1m"
    10 1704067260 (some 1704067200) none).1

/-- The Python value bound to the ttl slot of a queued cache-set item.
`BaseCacheClient.enqueue_set` declares `ttl_seconds : int | None` and queues
it unchanged, while `RedisClient._set_impl` expects a `datetime.timedelta`
and calls `ttl.total_seconds()` on it. -/
inductive PyTtl where
  | intSec (n : ℤ)
  | td (seconds : ℚ)
deriving DecidableEq

/-- Python truthiness of the optional ttl (`if ttl:`): `None`, `0` and
`timedelta(0)` are falsy. -/
def pyTruthyTtl : Option PyTtl → Bool
  | none => false
  | some (.intSec n) => n != 0
  | some (.td s) => s != 0

/-- One key of the Redis store: value and optional expiry seconds. -/
structure RedisEntry where
  key : String
  value : String
  ex : Option ℤ
deriving DecidableEq

/-- Redis `SET key value [EX seconds]`: overwrites any previous entry. -/
def redisSet (store : List RedisEntry) (key value : String) (ex : Option ℤ) :
    List RedisEntry :=
  store.filter (fun entry => entry.key != key) ++ [⟨key, value, ex⟩]

/-- `RedisClient.get` (`providers/opensource/redis_client.py`, lines 84-93). -/
def redisGet (store : List RedisEntry) (key : String) : Option String :=
  (store.find? (fun entry => entry.key == key)).map (fun entry => entry.value)

/-- `RedisClient._set_impl(key, value, ttl)` (`redis_client.py`, lines
61-82).  With a truthy ttl it runs `self.client.set(key, value,
ex=int(ttl.total_seconds()))`; when the queued ttl is an `int` (which is what
`enqueue_set` queues), `ttl.total_seconds()` raises `AttributeError`, the
surrounding `try/except` logs the error without re-raising, and the store is
left unchanged.  With a falsy ttl it sets the key without expiry. -/
def redisSetImpl (store : List RedisEntry) (key value : String)
    (ttl : Option PyTtl) : List RedisEntry :=
  if pyTruthyTtl ttl then
    match ttl with
    | some (.td s) => redisSet store key value (some (ratTrunc s))
    | some (.intSec _) => store
    | none => store
  else redisSet store key value none

/-- An item of the cache worker queue: `("set", key, value, ttl)`. -/
structure CacheQueueItem where
  op : String
  key : String
  value : String
  ttl : Option PyTtl
deriving DecidableEq

/-- `BaseCacheClient.enqueue_set(key, value, ttl_seconds)`
(`core/interfaces/cache.py`, lines 61-98): non-blocking `put_nowait` of
`("set", key, value, ttl_seconds)`; returns `True` when queued, `False` when
the queue is at capacity (in which case the drop counter and 60-second window
are updated, modelled in the stream/DB queue section). -/
def cacheEnqueueSet (queue : List CacheQueueItem) (maxsize : ℕ)
    (key value : String) (ttlSeconds : Option ℤ) :
    List CacheQueueItem × Bool :=
  if queue.length < maxsize then
    (queue ++ [⟨"set", key, value, ttlSeconds.map PyTtl.intSec⟩], true)
  else (queue, false)

/-- One item processed by `BaseCacheClient._worker` (`cache.py`, lines
100-125): a `"set"` item is handed to `_set_impl`. -/
def cacheWorkerProcess (store : List RedisEntry) (item : CacheQueueItem) :
    List RedisEntry :=
  if item.op == "set" then redisSetImpl store item.key item.value item.ttl
  else store

/-- C4: `enqueue_set(k, v, 60)` returns True on a non-full queue, but after
the cache worker processes the queued item the key is still absent from the
store — `_set_impl` calls `total_seconds()` on the queued int, the
`AttributeError` is swallowed, and the Redis `SET` never happens — so
`get(k)` returns None instead of v. -/
theorem enqueue_set_ttl_lost :
    (cacheEnqueueSet [] 1000 "latest_price:binance:BTCUSDT" "50000"
        (some 60)).2 = true ∧
    redisGet
      ((cacheEnqueueSet [] 1000 "latest_price:binance:BTCUSDT" "50000"
          (some 60)).1.foldl cacheWorkerProcess [])
      "latest_price:binance:BTCUSDT" = none ∧
    redisGet
      ((cacheEnqueueSet [] 1000 "latest_price:binance:BTCUSDT" "50000"
          (some 60)).1.foldl cacheWorkerProcess [])
      "latest_price:binance:BTCUSDT" ≠ some "50000" := by
  refine ⟨rfl, rfl, by decide⟩

/-- Result of a non-blocking enqueue: `{"status": "queued"}` or
`{"status": "dropped"}`. -/
inductive EnqueueStatus where
  | queued
  | dropped
deriving DecidableEq

/-- A record queued by `enqueue_record`: `(stream_name, data, partition_key)`
with the payload abstracted to a string. -/
structure StreamRecord where
  stream_name : String
  data : String
  partition_key : String
deriving DecidableEq

/-- State of a `BaseStreamProducer` queue
(`core/interfaces/streaming_producer.py`, lines 29-37): bounded queue, drop
counter, 60-second drop-timestamp window. -/
structure StreamProducerState where
  queue : List StreamRecord
  maxsize : ℕ
  dropped_count : ℕ
  drop_rate_window : List ℤ
deriving DecidableEq

/-- `BaseStreamProducer.enqueue_record` (`streaming_producer.py`, lines
61-107): `put_nowait` succeeds while the queue is below capacity
(`asyncio.Queue` with maxsize 0 is unbounded); on `QueueFull` the drop
counter is incremented by one, the current time is appended to the window,
and entries older than 60 seconds are trimmed. -/
def enqueueRecord (st : StreamProducerState) (rec : StreamRecord) (now : ℤ) :
    StreamProducerState × EnqueueStatus :=
  if st.maxsize == 0 || st.queue.length < st.maxsize then
    ({ st with queue := st.queue ++ [rec] }, .queued)
  else
    ({ st with
        dropped_count := st.dropped_count + 1,
        drop_rate_window :=
          (st.drop_rate_window ++ [now]).filter (fun t => now - 60 < t) },
      .dropped)

/-- State of the `BaseTimeSeriesDB` trade queue
(`core/interfaces/database.py`, lines 32-37): each queue item is one
`("trades", list)` envelope. -/
structure DbQueueState where
  queue : List (List ℕ)
  maxsize : ℕ
  dropped_trades : ℕ
  trade_drop_rate_window : List ℤ
deriving DecidableEq

/-- `BaseTimeSeriesDB.enqueue_trades` (`database.py`, lines 67-112): an empty
batch returns 0 untouched; a successful `put_nowait` returns `len(trades)`;
on `QueueFull` the drop counter grows by `len(trades)`, `len(trades)` copies
of the current time are appended to the window, old entries are trimmed, and
0 is returned. -/
def enqueueTrades (st : DbQueueState) (trades : List ℕ) (now : ℤ) :
    DbQueueState × ℕ :=
  if trades.isEmpty then (st, 0)
  else if st.maxsize == 0 || st.queue.length < st.maxsize then
    ({ st with queue := st.queue ++ [trades] }, trades.length)
  else
    ({ st with
        dropped_trades := st.dropped_trades + trades.length,
        trade_drop_rate_window :=
          (st.trade_drop_rate_window ++ List.replicate trades.length now).filter
            (fun t => now - 60 < t) },
      0)

/-- A full DB queue of size 1 holding one envelope. -/
def fullDbQueue : DbQueueState := ⟨[[1]], 1, 0, []⟩

/-- C6 counterexample: on the DB worker queue at capacity, one enqueue call
carrying a two-trade batch is dropped but increments the drop counter by two
(and appends two window timestamps), not by exactly one. -/
theorem db_enqueue_drop_increment_counterexample :
    (enqueueTrades fullDbQueue [7, 8] 0).2 = 0 ∧
    (enqueueTrades fullDbQueue [7, 8] 0).1.dropped_trades = 2 ∧
    (enqueueTrades fullDbQueue [7, 8] 0).1.trade_drop_rate_window.length = 2 := by
  decide

/-- Fold of `enqueue_record` calls with no worker consuming (all workers
blocked), collecting the returned statuses. -/
def runEnqueues (st : StreamProducerState) (recs : List StreamRecord)
    (now : ℤ) : StreamProducerState × List EnqueueStatus :=
  recs.foldl
    (fun acc rec =>
      let step := enqueueRecord acc.1 rec now
      (step.1, acc.2 ++ [step.2]))
    (st, [])

/-- Twenty-five identical records submitted to a size-10 stream queue. -/
def spamRecords : List StreamRecord :=
  List.replicate 25 ⟨"market-trades", "payload", "BTCUSDT"⟩

/-- C6 (amended): an enqueue on a stream queue at capacity returns dropped,
increments the drop counter by exactly one and appends one timestamp to the
trimmed 60-second window; the DB queue counts dropped trades instead,
incrementing by the batch length with that many window timestamps; and the
literal scenario holds: 25 `enqueue_record` calls against a size-10 queue
with blocked workers yield 10 queued then 15 dropped, `dropped_count = 15`,
and 15 window timestamps. -/
theorem enqueue_drop_accounting_amended (st : StreamProducerState)
    (rec : StreamRecord) (db : DbQueueState) (trades : List ℕ) (now : ℤ)
    (hfull : st.maxsize ≠ 0 ∧ st.maxsize ≤ st.queue.length)
    (hdb : trades ≠ [] ∧ db.maxsize ≠ 0 ∧ db.maxsize ≤ db.queue.length) :
    ((enqueueRecord st rec now).2 = .dropped ∧
      (enqueueRecord st rec now).1.dropped_count = st.dropped_count + 1 ∧
      (enqueueRecord st rec now).1.drop_rate_window =
        (st.drop_rate_window ++ [now]).filter (fun t => now - 60 < t)) ∧
    ((enqueueTrades db trades now).2 = 0 ∧
      (enqueueTrades db trades now).1.dropped_trades =
        db.dropped_trades + trades.length) ∧
    ((runEnqueues ⟨[], 10, 0, []⟩ spamRecords 0).2 =
        List.replicate 10 .queued ++ List.replicate 15 .dropped ∧
      (runEnqueues ⟨[], 10, 0, []⟩ spamRecords 0).1.dropped_count = 15 ∧
      (runEnqueues ⟨[], 10, 0, []⟩ spamRecords 0).1.drop_rate_window.length
        = 15) := by
  obtain ⟨hm, hlen⟩ := hfull
  obtain ⟨ht, hdm, hdlen⟩ := hdb
  have hcond : (st.maxsize == 0 || decide (st.queue.length < st.maxsize))
      = false := by
    simp [Nat.not_lt.mpr hlen, hm]
  have hdcond : (db.maxsize == 0 || decide (db.queue.length < db.maxsize))
      = false := by
    simp [Nat.not_lt.mpr hdlen, hdm]
  refine ⟨?_, ?_, by decide⟩
  · simp [enqueueRecord, hcond]
  · simp [enqueueTrades, ht, hdcond]

/-- Concrete instantiation of the hypotheses of
`enqueue_drop_accounting_amended` on a full size-1 stream queue and the full
DB queue. -/
theorem enqueue_drop_accounting_witness :
    (enqueueRecord ⟨[⟨"market-trades", "x", "BTCUSDT"⟩], 1, 3, []⟩
        ⟨"market-trades", "y", "BTCUSDT"⟩ 0).2 = .dropped ∧
    (enqueueRecord ⟨[⟨"market-trades", "x", "BTCUSDT"⟩], 1, 3, []⟩
        ⟨"market-trades", "y", "BTCUSDT"⟩ 0).1.dropped_count = 3 + 1 ∧
    (enqueueTrades fullDbQueue [7, 8] 0).2 = 0 := by
  have h := enqueue_drop_accounting_amended
    ⟨[⟨"market-trades", "x", "BTCUSDT"⟩], 1, 3, []⟩
    ⟨"market-trades", "y", "BTCUSDT"⟩ fullDbQueue [7, 8] 0
    (by decide) (by refine ⟨by decide, by decide, by decide⟩)
  exact ⟨h.1.1, h.1.2.1, h.2.1.1⟩

/-- A trade as seen by the validator (`core/models/market_data.py`, `Trade`):
timestamps in epoch seconds with sub-second resolution, Decimal price and
quantity. -/
structure PyTrade where
  timestamp : ℚ
  exchange : String
  symbol : String
  trade_id : String
  price : ℚ
  quantity : ℚ
  side : String
  is_buyer_maker : Bool
deriving DecidableEq

/-- State of `DataValidator` (`core/validators/market_data.py`, lines 31-41):
spike threshold percent, `last_prices` keyed by `"exchange:symbol"` holding
`(price, timestamp)`, and the two counters. -/
structure DataValidator where
  spike_threshold_pct : ℚ
  last_prices : List (String × ℚ × ℚ)
  spike_count : ℕ
  invalid_count : ℕ
deriving DecidableEq

/-- Outcome of `validate_trade`: updated validator state, the returned
`(is_valid, error)` pair, and whether the spike warning was logged. -/
structure ValidateOutcome where
  validator : DataValidator
  is_valid : Bool
  error : Option String
  spike_warned : Bool
deriving DecidableEq

/-- The `"exchange:symbol"` key of the `last_prices` dict. -/
def symbolKey (t : PyTrade) : String := t.exchange ++ ":" ++ t.symbol

/-- Python dict assignment `m[k] = v` on the assoc-list embedding. -/
def assocSet (m : List (String × ℚ × ℚ)) (k : String) (v : ℚ × ℚ) :
    List (String × ℚ × ℚ) :=
  if (m.find? (fun kv => kv.1 == k)).isSome then
    m.map (fun kv => if kv.1 == k then (k, v) else kv)
  else m ++ [(k, v)]

/-- `DataValidator.validate_trade` (`market_data.py` validators, lines
43-106).  Rejects (with the counter incremented) when `price <= 0`,
`quantity <= 0`, or `timestamp > now + 5`; otherwise, when a previous trade
for the same `"exchange:symbol"` key is strictly less than one second older
(`0 < time_diff < 1.0`) and the absolute percent price change exceeds
`spike_threshold_pct`, a warning is logged and the spike counter grows, but
the trade is still accepted; in every accepted case `last_prices` is updated
with this trade. -/
def validateTrade (v : DataValidator) (t : PyTrade) (now : ℚ) :
    ValidateOutcome :=
  if t.price ≤ 0 then
    ⟨{ v with invalid_count := v.invalid_count + 1 }, false,
      some "Invalid price", false⟩
  else if t.quantity ≤ 0 then
    ⟨{ v with invalid_count := v.invalid_count + 1 }, false,
      some "Invalid quantity", false⟩
  else if now + 5 < t.timestamp then
    ⟨{ v with invalid_count := v.invalid_count + 1 }, false,
      some "Future timestamp", false⟩
  else
    let key := symbolKey t
    let spiked :=
      match v.last_prices.find? (fun kv => kv.1 == key) with
      | some kv =>
        let lastPrice := kv.2.1
        let lastTime := kv.2.2
        let timeDiff := t.timestamp - lastTime
        decide (0 < timeDiff) && decide (timeDiff < 1)
          && decide (v.spike_threshold_pct < |(t.price - lastPrice) / lastPrice * 100|)
      | none => false
    let v2 := if spiked then { v with spike_count := v.spike_count + 1 } else v
    ⟨{ v2 with last_prices := assocSet v2.last_prices key (t.price, t.timestamp) },
      true, none, spiked⟩

/-- C9: `validate_trade` accepts exactly when `price > 0`, `quantity > 0` and
`timestamp <= now + 5`; and when the previous same-key trade is strictly less
than one second older with an absolute percent price change above the spike
threshold, the warning is logged while the trade is still accepted. -/
theorem validate_trade_spec (v : DataValidator) (t : PyTrade) (now : ℚ) :
    ((validateTrade v t now).is_valid = true ↔
      (0 < t.price ∧ 0 < t.quantity ∧ t.timestamp ≤ now + 5)) ∧
    (∀ kv : String × ℚ × ℚ,
      v.last_prices.find? (fun kv2 => kv2.1 == symbolKey t) = some kv →
      0 < t.timestamp - kv.2.2 → t.timestamp - kv.2.2 < 1 →
      v.spike_threshold_pct < |(t.price - kv.2.1) / kv.2.1 * 100| →
      0 < t.price → 0 < t.quantity → t.timestamp ≤ now + 5 →
      (validateTrade v t now).spike_warned = true ∧
      (validateTrade v t now).is_valid = true ∧
      (validateTrade v t now).validator.spike_count = v.spike_count + 1) := by
  constructor
  · constructor
    · intro hvalid
      by_contra hnot
      push_neg at hnot
      simp only [validateTrade] at hvalid
      rcases le_or_lt t.price 0 with hp | hp
      · rw [if_pos hp] at hvalid
        exact Bool.false_ne_true hvalid
      rcases le_or_lt t.quantity 0 with hq | hq
      · rw [if_neg (not_le.mpr hp), if_pos hq] at hvalid
        exact Bool.false_ne_true hvalid
      have hts := hnot hp hq
      rw [if_neg (not_le.mpr hp), if_neg (not_le.mpr hq), if_pos hts] at hvalid
      exact Bool.false_ne_true hvalid
    · rintro ⟨hp, hq, hts⟩
      simp only [validateTrade, if_neg (not_le.mpr hp), if_neg (not_le.mpr hq),
        if_neg (not_lt.mpr hts)]
  · intro kv hfind hd1 hd2 hjump hp hq hts
    have hspike :
        (match v.last_prices.find? (fun kv2 => kv2.1 == symbolKey t) with
          | some kv =>
            decide (0 < t.timestamp - kv.2.2) && decide (t.timestamp - kv.2.2 < 1)
              && decide (v.spike_threshold_pct
                  < |(t.price - kv.2.1) / kv.2.1 * 100|)
          | none => false) = true := by
      rw [hfind]
      simp [hd1, hd2, hjump]
    simp only [validateTrade, if_neg (not_le.mpr hp), if_neg (not_le.mpr hq),
      if_neg (not_lt.mpr hts), hspike, if_pos]
    exact ⟨trivial, trivial, trivial⟩

/-- Concrete instantiation of `validate_trade_spec`: the spec scenario with a
previous BTCUSDT trade at 50000 half a second earlier and a new trade at
60000 (a 20 percent jump over the default 10 percent threshold) warns and
accepts. -/
theorem validate_trade_spec_witness :
    (validateTrade ⟨10, [("binance:BTCUSDT", 50000, 0)], 0, 0⟩
        ⟨1/2, "binance", "BTCUSDT", "t2", 60000, 1/10, "buy", false⟩
        1).spike_warned = true ∧
    (validateTrade ⟨10, [("binance:BTCUSDT", 50000, 0)], 0, 0⟩
        ⟨1/2, "binance", "BTCUSDT", "t2", 60000, 1/10, "buy", false⟩
        1).is_valid = true := by
  have h := validate_trade_spec ⟨10, [("binance:BTCUSDT", 50000, 0)], 0, 0⟩
    ⟨1/2, "binance", "BTCUSDT", "t2", 60000, 1/10, "buy", false⟩ 1
  have h2 := h.2 ("binance:BTCUSDT", 50000, 0) (by simp [symbolKey])
    (by norm_num) (by norm_num) (by norm_num) (by norm_num) (by norm_num)
    (by norm_num)
  exact ⟨h2.1, h2.2.1⟩

/-- A pooled ClickHouse connection: an identity and whether it has observed
an operation error (poisoned). -/
structure PoolConn where
  id : ℕ
  poisoned : Bool
deriving DecidableEq

/-- Outcome of one pooled operation: success; operation error with a
successful `_create_connection()` (carrying the id of the fresh connection);
or operation error with the recreation also failing. -/
inductive OpOutcome where
  | ok
  | opErrRecreateOk (freshId : ℕ)
  | opErrRecreateFail
deriving DecidableEq

/-- Pool effect of one ColumnarSink operation.  `_insert_trades_impl`,
`query`, `insert_orderbooks`, `insert_candles`, `query_candles` and
`insert_indicators` in `providers/opensource/clickhouse.py` all share the
same acquire / run / `finally:` shape: take a connection from the pool
(`_pool.get()` suspends on an empty pool — no transition here); on success
put the same connection back; on error mark it poisoned, never put it back,
and put a freshly created (unpoisoned) connection instead; if the recreation
also fails, put nothing back (the critical log is emitted and the pool is
one connection smaller).  The methods differ only in whether the error is
re-raised, which does not affect the pool. -/
def poolAfterOp (pool : List PoolConn) (out : OpOutcome) : List PoolConn :=
  match pool with
  | [] => []
  | conn :: rest =>
    match out with
    | .ok => rest ++ [conn]
    | .opErrRecreateOk freshId => rest ++ [⟨freshId, false⟩]
    | .opErrRecreateFail => rest

/-- C8: across any sequence of pooled operations, the pool never contains a
poisoned connection and never grows past its initial size; one erroring
operation keeps the pool size unchanged when recreation succeeds (with the
poisoned connection gone, replaced by the fresh one) and shrinks it by
exactly one when recreation fails (with the poisoned connection gone). -/
theorem pool_poison_discipline (pool : List PoolConn) (outs : List OpOutcome)
    (hclean : ∀ c ∈ pool, c.poisoned = false) :
    (∀ c ∈ outs.foldl poolAfterOp pool, c.poisoned = false) ∧
    (outs.foldl poolAfterOp pool).length ≤ pool.length ∧
    (∀ conn rest freshId, pool = conn :: rest →
      ((poolAfterOp pool (.opErrRecreateOk freshId)).length = pool.length ∧
        (conn.id ∉ rest.map PoolConn.id → freshId ≠ conn.id →
          conn.id ∉ (poolAfterOp pool (.opErrRecreateOk freshId)).map PoolConn.id) ∧
        (poolAfterOp pool .opErrRecreateFail).length + 1 = pool.length ∧
        (conn.id ∉ rest.map PoolConn.id →
          conn.id ∉ (poolAfterOp pool .opErrRecreateFail).map PoolConn.id))) := by
  have hstep : ∀ (p : List PoolConn) (o : OpOutcome),
      (∀ c ∈ p, c.poisoned = false) →
      (∀ c ∈ poolAfterOp p o, c.poisoned = false) ∧
        (poolAfterOp p o).length ≤ p.length := by
    intro p o hp
    match p, o with
    | [], _ => exact ⟨fun c hc => absurd hc (List.not_mem_nil c), Nat.le_refl 0⟩
    | conn :: rest, .ok =>
      refine ⟨?_, by simp [poolAfterOp]⟩
      intro c hc
      simp only [poolAfterOp, List.mem_append, List.mem_singleton] at hc
      rcases hc with hc | rfl
      · exact hp c (List.mem_cons_of_mem conn hc)
      · exact hp c (List.mem_cons_self c rest)
    | conn :: rest, .opErrRecreateOk freshId =>
      refine ⟨?_, by simp [poolAfterOp]⟩
      intro c hc
      simp only [poolAfterOp, List.mem_append, List.mem_singleton] at hc
      rcases hc with hc | rfl
      · exact hp c (List.mem_cons_of_mem conn hc)
      · rfl
    | conn :: rest, .opErrRecreateFail =>
      refine ⟨?_, by simp [poolAfterOp]⟩
      intro c hc
      exact hp c (List.mem_cons_of_mem conn hc)
  have hfold : ∀ (os : List OpOutcome) (p : List PoolConn),
      (∀ c ∈ p, c.poisoned = false) →
      (∀ c ∈ os.foldl poolAfterOp p, c.poisoned = false) ∧
        (os.foldl poolAfterOp p).length ≤ p.length := by
    intro os
    induction os with
    | nil => exact fun p hp => ⟨hp, Nat.le_refl _⟩
    | cons o os ih =>
      intro p hp
      have h1 := hstep p o hp
      have h2 := ih (poolAfterOp p o) h1.1
      exact ⟨h2.1, Nat.le_trans h2.2 h1.2⟩
  refine ⟨(hfold outs pool hclean).1, (hfold outs pool hclean).2, ?_⟩
  rintro conn rest freshId rfl
  refine ⟨by simp [poolAfterOp], ?_, by simp [poolAfterOp], ?_⟩
  · intro hid hfresh hmem
    simp only [poolAfterOp, List.map_append, List.mem_append,
      List.map_cons, List.map_nil, List.mem_singleton] at hmem
    rcases hmem with hmem | hmem
    · exact hid hmem
    · exact hfresh hmem.symm
  · intro hid hmem
    simp only [poolAfterOp] at hmem
    exact hid hmem

/-- Concrete instantiation of `pool_poison_discipline`: a three-connection
pool through an error-with-recovery followed by an error-without-recovery
ends with two clean connections. -/
theorem pool_poison_discipline_witness :
    (∀ c ∈ ([.opErrRecreateOk 7, .opErrRecreateFail] : List OpOutcome).foldl
        poolAfterOp [⟨1, false⟩, ⟨2, false⟩, ⟨3, false⟩],
      c.poisoned = false) ∧
    (([.opErrRecreateOk 7, .opErrRecreateFail] : List OpOutcome).foldl
        poolAfterOp [⟨1, false⟩, ⟨2, false⟩, ⟨3, false⟩]).length ≤ 3 :=
  ⟨(pool_poison_discipline [⟨1, false⟩, ⟨2, false⟩, ⟨3, false⟩]
      [.opErrRecreateOk 7, .opErrRecreateFail] (by decide)).1,
    (pool_poison_discipline [⟨1, false⟩, ⟨2, false⟩, ⟨3, false⟩]
      [.opErrRecreateOk 7, .opErrRecreateFail] (by decide)).2.1⟩

/-- An item of the DB worker queue: a `("trades", list)` envelope (trades
identified by naturals) or the shutdown sentinel. -/
inductive DbQueueItem where
  | trades (batch : List ℕ)
  | sentinel
deriving DecidableEq

/-- Recogniser for the sentinel. -/
def isSentinel : DbQueueItem → Bool
  | .sentinel => true
  | .trades _ => false

/-- Local state of one `BaseTimeSeriesDB._worker` (`database.py`, lines
114-160): the accumulated `batch_trades`, whether the loop has exited, and
the batches handed to `_insert_trades_impl` so far, in order. -/
structure DbWorker where
  batch_trades : List ℕ
  exited : Bool
  inserts : List (List ℕ)
deriving DecidableEq

/-- The whole queue-plus-workers system. -/
structure DbSystem where
  queue : List DbQueueItem
  workers : List DbWorker
deriving DecidableEq

/-- The body of `BaseTimeSeriesDB._worker` for one dequeued item: a sentinel
flushes any non-empty accumulated batch to `_insert_trades_impl` and breaks
the loop; a trades envelope extends the batch, flushing it when it has
reached `batch_size`. -/
def workerHandle (batchSize : ℕ) (w : DbWorker) (item : DbQueueItem) :
    DbWorker :=
  match item with
  | .sentinel =>
    if w.batch_trades.isEmpty then { w with exited := true }
    else { w with inserts := w.inserts ++ [w.batch_trades],
                  batch_trades := [], exited := true }
  | .trades items =>
    let b := w.batch_trades ++ items
    if batchSize ≤ b.length then
      { w with inserts := w.inserts ++ [b], batch_trades := [] }
    else { w with batch_trades := b }

/-- One scheduler step: worker `i`, if it exists and has not exited,
dequeues the head of the shared FIFO queue and handles it.  An exited worker
never dequeues again (it has broken out of its loop), modelling that no
worker loops past a sentinel. -/
def sysStep (batchSize : ℕ) (s : DbSystem) (i : ℕ) : DbSystem :=
  match s.queue with
  | [] => s
  | item :: rest =>
    match s.workers[i]? with
    | none => s
    | some w =>
      if w.exited then s
      else { queue := rest,
             workers := s.workers.set i (workerHandle batchSize w item) }

/-- Run the system under an arbitrary interleaving of worker turns. -/
def sysRun (batchSize : ℕ) (s : DbSystem) (sched : List ℕ) : DbSystem :=
  sched.foldl (sysStep batchSize) s

/-- `BaseTimeSeriesDB.close` (`database.py`, lines 264-291): puts exactly one
sentinel per worker task onto the queue (then awaits the workers). -/
def dbClose (s : DbSystem) : DbSystem :=
  { s with queue := s.queue ++ List.replicate s.workers.length .sentinel }

/-- A freshly connected system: the enqueued trade envelopes, and `n` workers
with empty batches. -/
def initSystem (batches : List (List ℕ)) (n : ℕ) : DbSystem :=
  { queue := batches.map .trades, workers := List.replicate n ⟨[], false, []⟩ }

/-- Trades carried by one queue item. -/
def itemTrades : DbQueueItem → Multiset ℕ
  | .trades b => Multiset.ofList b
  | .sentinel => 0

/-- Trades still sitting in the queue. -/
def queueTrades (q : List DbQueueItem) : Multiset ℕ := (q.map itemTrades).sum

/-- Trades a worker has flushed to `_insert_trades_impl`. -/
def insertedTrades (w : DbWorker) : Multiset ℕ :=
  (w.inserts.map Multiset.ofList).sum

/-- Trades a worker holds or has flushed. -/
def workerTrades (w : DbWorker) : Multiset ℕ :=
  Multiset.ofList w.batch_trades + insertedTrades w

/-- All trades in the system, wherever they sit. -/
def sysTrades (s : DbSystem) : Multiset ℕ :=
  queueTrades s.queue + (s.workers.map workerTrades).sum

/-- Number of sentinels still queued. -/
def sentinelCount (q : List DbQueueItem) : ℕ := q.countP isSentinel

/-- Number of workers still in their loop. -/
def runningCount (ws : List DbWorker) : ℕ := ws.countP (fun w => !w.exited)

theorem ofList_append (a b : List ℕ) :
    Multiset.ofList (a ++ b) = Multiset.ofList a + Multiset.ofList b :=
  (Multiset.coe_add a b).symm

theorem ofList_nil : Multiset.ofList ([] : List ℕ) = 0 := rfl

theorem countP_set_add {α : Type} (p : α → Bool) :
    ∀ (l : List α) (i : ℕ) (x : α) (h : i < l.length),
      (l.set i x).countP p + (if p (l.get ⟨i, h⟩) then 1 else 0)
        = l.countP p + (if p x then 1 else 0) := by
  intro l
  induction l with
  | nil => intro i x h; exact absurd h (Nat.not_lt_zero i)
  | cons a t ih =>
    intro i x h
    match i with
    | 0 =>
      simp only [List.set, List.get, List.countP_cons]
      split_ifs <;> omega
    | i + 1 =>
      have ht : i < t.length := Nat.lt_of_succ_lt_succ h
      have := ih i x ht
      simp only [List.set, List.get, List.countP_cons]
      split_ifs at this ⊢ <;> omega

theorem mapSum_set_add {α : Type} (f : α → Multiset ℕ) :
    ∀ (l : List α) (i : ℕ) (x : α) (h : i < l.length),
      ((l.set i x).map f).sum + f (l.get ⟨i, h⟩) = (l.map f).sum + f x := by
  intro l
  induction l with
  | nil => intro i x h; exact absurd h (Nat.not_lt_zero i)
  | cons a t ih =>
    intro i x h
    match i with
    | 0 =>
      simp only [List.set, List.get, List.map_cons, List.sum_cons]
      abel
    | i + 1 =>
      have ht : i < t.length := Nat.lt_of_succ_lt_succ h
      have hrec := ih i x ht
      simp only [List.set, List.get, List.map_cons, List.sum_cons]
      rw [add_assoc, hrec, ← add_assoc]

/-- The inductive invariant of the DB worker system. -/
def DbInv (total : Multiset ℕ) (n : ℕ) (s : DbSystem) : Prop :=
  sysTrades s = total ∧
  sentinelCount s.queue = runningCount s.workers ∧
  (∀ w ∈ s.workers, w.exited = true → w.batch_trades = []) ∧
  s.workers.length = n

theorem dbInv_step (batchSize n : ℕ) (total : Multiset ℕ) (s : DbSystem)
    (i : ℕ) (hinv : DbInv total n s) : DbInv total n (sysStep batchSize s i) := by
  obtain ⟨q, ws⟩ := s
  obtain ⟨hcons, hsent, hexit, hlen⟩ := hinv
  cases q with
  | nil => exact ⟨hcons, hsent, hexit, hlen⟩
  | cons item rest =>
    cases hw : ws[i]? with
    | none =>
      simp only [sysStep, hw]
      exact ⟨hcons, hsent, hexit, hlen⟩
    | some w =>
      simp only [sysStep, hw]
      obtain ⟨hi, hget⟩ := List.getElem?_eq_some.mp hw
      by_cases hex : w.exited
      · rw [if_pos hex]
        exact ⟨hcons, hsent, hexit, hlen⟩
      · rw [if_neg hex]
        have hgetw : ws.get ⟨i, hi⟩ = w := hget
        have hmapsum := mapSum_set_add workerTrades ws i
          (workerHandle batchSize w item) hi
        rw [hgetw] at hmapsum
        have hcount := countP_set_add (fun w2 => !w2.exited) ws i
          (workerHandle batchSize w item) hi
        rw [hgetw] at hcount
        have hwrun : (!w.exited) = true := by simp [hex]
        have hwt : workerTrades (workerHandle batchSize w item)
            = workerTrades w + itemTrades item := by
          match item with
          | .sentinel =>
            simp only [workerHandle]
            by_cases hb : w.batch_trades.isEmpty
            · rw [if_pos hb]
              simp [workerTrades, insertedTrades, itemTrades]
            · rw [if_neg hb]
              simp only [workerTrades, insertedTrades, itemTrades,
                List.map_append, List.sum_append, List.map_cons, List.sum_cons,
                List.map_nil, List.sum_nil, ofList_nil, add_zero]
              abel
          | .trades items =>
            simp only [workerHandle]
            by_cases hb : batchSize ≤ (w.batch_trades ++ items).length
            · rw [if_pos hb]
              simp only [workerTrades, insertedTrades, itemTrades,
                List.map_append, List.sum_append, List.map_cons, List.sum_cons,
                List.map_nil, List.sum_nil, ofList_nil, ofList_append, add_zero]
              abel
            · rw [if_neg hb]
              simp only [workerTrades, insertedTrades, itemTrades,
                ofList_append]
              abel
        refine ⟨?_, ?_, ?_, ?_⟩
        · show queueTrades rest
              + ((ws.set i (workerHandle batchSize w item)).map workerTrades).sum
            = total
          have hc : queueTrades (item :: rest) + (ws.map workerTrades).sum
              = total := hcons
          have hq2 : queueTrades (item :: rest)
              = itemTrades item + queueTrades rest := by
            simp [queueTrades]
          have h2 : ((ws.set i (workerHandle batchSize w item)).map
                workerTrades).sum
              = (ws.map workerTrades).sum + itemTrades item := by
            have h0 := hmapsum
            rw [hwt] at h0
            have h3 : ((ws.set i (workerHandle batchSize w item)).map
                  workerTrades).sum + workerTrades w
                = ((ws.map workerTrades).sum + itemTrades item)
                  + workerTrades w := by
              rw [h0]; abel
            exact add_right_cancel h3
          rw [hq2] at hc
          rw [h2, ← hc]
          abel
        · show sentinelCount rest
            = runningCount (ws.set i (workerHandle batchSize w item))
          have hs : sentinelCount (item :: rest) = runningCount ws := hsent
          have hsc : sentinelCount (item :: rest)
              = sentinelCount rest + (if isSentinel item then 1 else 0) := by
            simp [sentinelCount, List.countP_cons]
          match item with
          | .sentinel =>
            have hnew : (!(workerHandle batchSize w .sentinel).exited) = false := by
              simp only [workerHandle]
              by_cases hb : w.batch_trades.isEmpty
              · rw [if_pos hb]
                rfl
              · rw [if_neg hb]
                rfl
            simp only [hwrun, hnew, if_true, if_false, Bool.false_eq_true,
              reduceIte] at hcount
            simp only [isSentinel, if_true, reduceIte] at hsc hs
            unfold sentinelCount runningCount at *
            omega
          | .trades b =>
            have hnew : (!(workerHandle batchSize w (.trades b)).exited) = true := by
              simp only [workerHandle]
              by_cases hb : batchSize ≤ (w.batch_trades ++ b).length
              · rw [if_pos hb]; simpa using hex
              · rw [if_neg hb]; simpa using hex
            simp only [hwrun, hnew, if_true, reduceIte] at hcount
            simp only [isSentinel, Bool.false_eq_true, if_false,
              reduceIte] at hsc hs
            unfold sentinelCount runningCount at *
            omega
        · intro w2 hw2 hw2ex
          rcases List.mem_or_eq_of_mem_set hw2 with hmem | rfl
          · exact hexit w2 hmem hw2ex
          · match item with
            | .sentinel =>
              simp only [workerHandle] at hw2ex ⊢
              by_cases hb : w.batch_trades.isEmpty
              · rw [if_pos hb]
                simpa using hb
              · rw [if_neg hb]
            | .trades b =>
              have hwex : (workerHandle batchSize w (.trades b)).exited
                  = w.exited := by
                simp only [workerHandle]
                by_cases hb : batchSize ≤ (w.batch_trades ++ b).length
                · rw [if_pos hb]
                · rw [if_neg hb]
              rw [hwex] at hw2ex
              exact absurd hw2ex hex
        · rw [List.length_set]
          exact hlen

theorem dbInv_run (batchSize n : ℕ) (total : Multiset ℕ) (s : DbSystem)
    (sched : List ℕ) (hinv : DbInv total n s) :
    DbInv total n (sysRun batchSize s sched) := by
  induction sched generalizing s with
  | nil => exact hinv
  | cons i sched ih => exact ih _ (dbInv_step batchSize n total s i hinv)

/-- C7: `close()` places exactly one sentinel per worker; under every
interleaving of worker turns that drains the queue, every worker has exited
(having flushed its remaining batch on the sentinel, and never dequeuing
past it — an exited worker takes no further turns in `sysStep`), and the
batches handed to `_insert_trades_impl` across all workers contain exactly
the trades enqueued before `close()`. -/
theorem sentinel_shutdown_drains (batchSize n : ℕ) (batches : List (List ℕ))
    (sched : List ℕ)
    (hdrain : (sysRun batchSize (dbClose (initSystem batches n)) sched).queue
      = []) :
    (dbClose (initSystem batches n)).queue
        = batches.map DbQueueItem.trades ++ List.replicate n DbQueueItem.sentinel ∧
    (∀ w ∈ (sysRun batchSize (dbClose (initSystem batches n)) sched).workers,
      w.exited = true ∧ w.batch_trades = []) ∧
    ((sysRun batchSize (dbClose (initSystem batches n)) sched).workers.map
        insertedTrades).sum
      = (batches.map Multiset.ofList).sum := by
  have hclose : (dbClose (initSystem batches n)).queue
      = batches.map DbQueueItem.trades ++ List.replicate n DbQueueItem.sentinel := by
    simp [dbClose, initSystem]
  have hinv0 : DbInv ((batches.map Multiset.ofList).sum) n
      (dbClose (initSystem batches n)) := by
    refine ⟨?_, ?_, ?_, ?_⟩
    · show queueTrades (dbClose (initSystem batches n)).queue
          + (((initSystem batches n).workers).map workerTrades).sum
        = (batches.map Multiset.ofList).sum
      rw [hclose]
      have h1 : queueTrades (batches.map DbQueueItem.trades
            ++ List.replicate n DbQueueItem.sentinel)
          = (batches.map Multiset.ofList).sum := by
        unfold queueTrades
        rw [List.map_append, List.sum_append, List.map_map, List.map_replicate]
        have h2 : (List.replicate n (itemTrades DbQueueItem.sentinel)).sum
            = (0 : Multiset ℕ) := by
          simp [itemTrades]
        rw [h2, add_zero]
        congr 1
      have h3 : (((initSystem batches n).workers).map workerTrades).sum
          = (0 : Multiset ℕ) := by
        show ((List.replicate n (⟨[], false, []⟩ : DbWorker)).map
            workerTrades).sum = 0
        rw [List.map_replicate]
        simp [workerTrades, insertedTrades, ofList_nil]
      rw [h1, h3, add_zero]
    · show sentinelCount (dbClose (initSystem batches n)).queue
        = runningCount (initSystem batches n).workers
      rw [hclose]
      unfold sentinelCount runningCount
      rw [List.countP_append]
      have h1 : (batches.map DbQueueItem.trades).countP isSentinel = 0 := by
        rw [List.countP_eq_zero]
        intro a ha
        obtain ⟨b, _, rfl⟩ := List.mem_map.mp ha
        simp [isSentinel]
      have h2 : (List.replicate n DbQueueItem.sentinel).countP isSentinel = n := by
        simp [List.countP_replicate, isSentinel]
      have h3 : ((initSystem batches n).workers).countP (fun w => !w.exited)
          = n := by
        show (List.replicate n (⟨[], false, []⟩ : DbWorker)).countP
            (fun w => !w.exited) = n
        simp [List.countP_replicate]
      rw [h1, h2, h3]
      omega
    · intro w hw hwex
      have : w = (⟨[], false, []⟩ : DbWorker) := by
        have := List.eq_of_mem_replicate (by simpa [dbClose, initSystem] using hw)
        exact this
      rw [this]
    · simp [dbClose, initSystem]
  have hinv := dbInv_run batchSize n ((batches.map Multiset.ofList).sum)
    (dbClose (initSystem batches n)) sched hinv0
  obtain ⟨hcons, hsent, hexit, hlen⟩ := hinv
  rw [hdrain] at hsent
  have hrun0 : runningCount
      (sysRun batchSize (dbClose (initSystem batches n)) sched).workers = 0 := by
    have : sentinelCount ([] : List DbQueueItem) = 0 := rfl
    omega
  have hallex : ∀ w ∈ (sysRun batchSize (dbClose (initSystem batches n))
      sched).workers, w.exited = true := by
    intro w hw
    have := List.countP_eq_zero.mp hrun0 w hw
    simpa using this
  refine ⟨hclose, ?_, ?_⟩
  · intro w hw
    exact ⟨hallex w hw, hexit w hw (hallex w hw)⟩
  · have hwt : ∀ w ∈ (sysRun batchSize (dbClose (initSystem batches n))
        sched).workers, workerTrades w = insertedTrades w := by
      intro w hw
      unfold workerTrades
      rw [hexit w hw (hallex w hw), ofList_nil, zero_add]
    have hmapeq : ((sysRun batchSize (dbClose (initSystem batches n))
          sched).workers.map workerTrades).sum
        = ((sysRun batchSize (dbClose (initSystem batches n))
          sched).workers.map insertedTrades).sum := by
      congr 1
      exact List.map_congr_left hwt
    rw [← hmapeq]
    have hq0 : queueTrades (sysRun batchSize (dbClose (initSystem batches n))
        sched).queue = 0 := by
      rw [hdrain]
      rfl
    have hc : queueTrades (sysRun batchSize (dbClose (initSystem batches n))
          sched).queue
        + ((sysRun batchSize (dbClose (initSystem batches n)) sched).workers.map
            workerTrades).sum
        = (batches.map Multiset.ofList).sum := hcons
    rw [hq0, zero_add] at hc
    exact hc

/-- Concrete instantiation of `sentinel_shutdown_drains`: two workers, two
envelopes, a schedule in which worker 0 drains both envelopes and its
sentinel and worker 1 takes the second sentinel; both exit and the flushed
batches carry exactly the enqueued trades. -/
theorem sentinel_shutdown_drains_witness :
    (∀ w ∈ (sysRun 100 (dbClose (initSystem [[1, 2], [3]] 2)) [0, 0, 0, 1]).workers,
      w.exited = true ∧ w.batch_trades = []) ∧
    ((sysRun 100 (dbClose (initSystem [[1, 2], [3]] 2)) [0, 0, 0, 1]).workers.map
        insertedTrades).sum
      = (([[1, 2], [3]] : List (List ℕ)).map Multiset.ofList).sum :=
  ⟨(sentinel_shutdown_drains 100 2 [[1, 2], [3]] [0, 0, 0, 1] (by decide)).2.1,
    (sentinel_shutdown_drains 100 2 [[1, 2], [3]] [0, 0, 0, 1] (by decide)).2.2⟩

/-- The methods the class `IndicatorCalculator`
(`services/indicator_service/calculator.py`, lines 28-158) defines. -/
def indicatorCalculatorMethods : List String :=
  ["__init__", "process_candle_event", "_query_candles",
   "_validate_data_sufficiency", "_calculate_indicators"]

/-- One (exchange, symbol, timeframe) iteration of
`IndicatorService.calculate_and_store_indicators`
(`services/indicator_service/main.py`, lines 102-125): query the candles;
skip when empty or below `min_candles`; otherwise evaluate
`self.calculator.process_candle_with_history(candles[-1], candles)`.  Python
resolves the attribute before the call, so when the name is not among the
methods the calculator defines, `AttributeError` is raised and caught by the
per-combination `except` handler (line 122), producing no writes whatever
the method body would have written (`wouldWrite` stands for that body). -/
def indicatorComboWrites {α : Type} (candles : List Candle) (minCandles : ℕ)
    (wouldWrite : Candle → List Candle → List α) : List α :=
  if candles.isEmpty || candles.length < minCandles then []
  else
    match candles.getLast? with
    | none => []
    | some latest =>
      if indicatorCalculatorMethods.contains "process_candle_with_history" then
        wouldWrite latest candles
      else []

/-- C1: no (exchange, symbol, timeframe) iteration of one IndicatorEngine
cycle ever writes anything — with 50 candles or any other input — because
`process_candle_with_history` is not a method of `IndicatorCalculator`, so
every iteration dies with a swallowed `AttributeError` before computing or
storing indicators. -/
theorem indicator_cycle_writes_nothing {α : Type} (candles : List Candle)
    (minCandles : ℕ) (wouldWrite : Candle → List Candle → List α) :
    indicatorComboWrites candles minCandles wouldWrite = [] ∧
    "process_candle_with_history" ∉ indicatorCalculatorMethods := by
  constructor
  · unfold indicatorComboWrites
    split
    · rfl
    · cases candles.getLast? with
      | none => rfl
      | some latest => rfl
  · decide

/-- The top-level names `core/models/market_data.py` defines. -/
def marketDataDefinedNames : List String :=
  ["Trade", "Candle", "OrderBook"]

/-- The names `core/utils/gap_handling.py` line 12 imports from
`core.models.market_data`. -/
def gapHandlingImportedNames : List String :=
  ["Candle", "GapInfo"]

/-- Whether the import statement of `gap_handling.py` succeeds: every
imported name must be defined in the imported module. -/
def gapHandlingImportOk : Bool :=
  gapHandlingImportedNames.all (fun n => marketDataDefinedNames.contains n)

/-- C5: the gap-filling module cannot even be imported — `GapInfo` is not
defined in `core/models/market_data.py` — and the `Candle` model declares no
`is_synthetic` (nor `quote_volume`) field, so `fill_gaps` cannot produce
candles flagged `is_synthetic=true` as its own docstring, its callers in
`GapHandler`, and the claim require. -/
theorem gap_handling_import_broken :
    gapHandlingImportOk = false ∧
    "GapInfo" ∈ gapHandlingImportedNames ∧
    "GapInfo" ∉ marketDataDefinedNames ∧
    "is_synthetic" ∉ candleModelFields ∧
    "quote_volume" ∉ candleModelFields := by
  refine ⟨by decide, by decide, by decide, by decide, by decide⟩

end DataPlatform
